import Mathlib

/-!
Verification of the taro-list virtual list component
(src/src/components/List/VirtualList/index.tsx).

The file embeds the component shallowly: the VirtualList class becomes a
Lean structure with its mutable fields, each method becomes a state-passing
function, and collaborator modules that are not part of the excerpted source
(the size-and-position manager, the data manager's scheduler, the types and
utils modules) are modelled from the specification, each marked by a doc
comment starting with "Modelled from the spec".
-/

/-- Abstract CSS value: a plain number, the string value 100-percent,
or the string value auto. -/
inductive CSSVal where
  | num (v : Int)
  | pct100
  | auto
deriving DecidableEq, Repr

/-- Position values that can appear in an item style. -/
inductive ItemStylePosition where
  | absolute
  | sticky
deriving DecidableEq, Repr

/-- Scroll direction of the list. -/
inductive DIRECTION where
  | vertical
  | horizontal
deriving DecidableEq, Repr

/-- The ItemStyle interface of the source: position, width, height, left,
top and zIndex. The zIndex field is absent from the STYLE_ITEM constant in
the source and is always set by the style construction, so it carries a
default here. -/
structure ItemStyle where
  position : ItemStylePosition
  width : CSSVal
  height : CSSVal
  left : Int
  top : Int
  zIndex : CSSVal
deriving DecidableEq, Repr

/-- The STYLE_ITEM base constant of the source: absolute position, full
width, automatic height, left 0, top 0. -/
def STYLE_ITEM : ItemStyle :=
  { position := ItemStylePosition.absolute
    width := CSSVal.pct100
    height := CSSVal.auto
    left := 0
    top := 0
    zIndex := CSSVal.auto }

/-- Modelled from the spec: the types module is not under src/. sizeProp
maps the scroll direction to the CSS extent property along the scroll axis
(vertical scrolling sizes via height, horizontal via width); this function
applies that property assignment to a style. -/
def setSizeProp (d : DIRECTION) (s : ItemStyle) (v : CSSVal) : ItemStyle :=
  match d with
  | DIRECTION.vertical => { s with height := v }
  | DIRECTION.horizontal => { s with width := v }

/-- Modelled from the spec: the types module is not under src/. positionProp
maps the scroll direction to the CSS offset property along the scroll axis
(vertical scrolling positions via top, horizontal via left); this function
applies that property assignment to a style. -/
def setPositionProp (d : DIRECTION) (s : ItemStyle) (v : Int) : ItemStyle :=
  match d with
  | DIRECTION.vertical => { s with top := v }
  | DIRECTION.horizontal => { s with left := v }

/-- Modelled from the spec: the elevated layering value applied to sticky
items (a constant of the types module, which is not under src/). -/
def DEFAULT_ZINDEX : Int := 1

/-- Modelled from the spec: CSS-unit normalization is excluded from the core
(treated as an external collaborator), so normalizeStyle is the identity on
the abstract style record. -/
def normalizeStyle (style : ItemStyle) : ItemStyle := style

/-- A size record as returned by the manager: cumulative offset from the
list start to the leading edge, and the item extent. -/
structure SizeRecord where
  offset : Int
  size : Int
deriving DecidableEq, Repr

/-- Modelled from the spec: the SizeAndPositionManger module is not under
src/. The lazily-built cumulative cache is modelled by its denotation: the
configuration of the manager (item count and the two getters) determines
every size and offset. -/
structure SizeAndPositionManager where
  itemCount : Nat
  itemSizeGetter : Nat → Option Int
  estimatedSizeGetter : Nat → Int

/-- Modelled from the spec: the size of index i is the measured size when
the item size getter is defined there and the estimated size otherwise. -/
def SizeAndPositionManager.sizeAt (m : SizeAndPositionManager) (i : Nat) : Int :=
  (m.itemSizeGetter i).getD (m.estimatedSizeGetter i)

/-- Modelled from the spec: the offset of index i is the cumulative sum of
the sizes of all earlier indices. -/
def SizeAndPositionManager.offsetAt (m : SizeAndPositionManager) (i : Nat) : Int :=
  ((List.range i).map (fun j => m.sizeAt j)).sum

/-- Modelled from the spec: returns the size record (cumulative offset and
size) for an index. -/
def SizeAndPositionManager.getSizeAndPositionForIndex
    (m : SizeAndPositionManager) (i : Nat) : SizeRecord :=
  { offset := m.offsetAt i, size := m.sizeAt i }

/-- Modelled from the spec: the total extent of the list, the cumulative
offset just past the last index; 0 when itemCount = 0. -/
def SizeAndPositionManager.getTotalSize (m : SizeAndPositionManager) : Int :=
  m.offsetAt m.itemCount

/-- Modelled from the spec: the visible range query. Returns none (an
explicit empty range) when itemCount = 0 or the container extent is not
positive. Otherwise start is the smallest index whose offset plus size
exceeds the current offset, end is the largest index whose offset lies
before the trailing edge of the window, and overscan widens the range on
both sides with clamping into the index interval. -/
def SizeAndPositionManager.getVisibleRange (m : SizeAndPositionManager)
    (containerSize : Int) (currentOffset : Int) (overscan : Nat) :
    Option (Nat × Nat) :=
  if m.itemCount = 0 ∨ containerSize ≤ 0 then none
  else
    let start0 := ((List.range m.itemCount).find?
      (fun i => decide (currentOffset < m.offsetAt i + m.sizeAt i))).getD
      (m.itemCount - 1)
    let end0 := (((List.range m.itemCount).filter
      (fun i => decide (m.offsetAt i < currentOffset + containerSize))).getLast?).getD
      start0
    some (start0 - overscan, min (end0 + overscan) (m.itemCount - 1))

/-- Modelled from the spec: updateConfig merges the provided configuration
fields into the manager, leaving absent fields unchanged. -/
def SizeAndPositionManager.updateConfig (m : SizeAndPositionManager)
    (itemCount : Option Nat) (itemSizeGetter : Option (Nat → Option Int))
    (estimatedSizeGetter : Option (Nat → Int)) : SizeAndPositionManager :=
  { itemCount := itemCount.getD m.itemCount
    itemSizeGetter := itemSizeGetter.getD m.itemSizeGetter
    estimatedSizeGetter := estimatedSizeGetter.getD m.estimatedSizeGetter }

/-- Modelled from the spec: the utils module is not under src/. The itemSize
configuration (a fixed number or absent) becomes a per-index getter that
returns the fixed size when present. -/
def getItemSizeGetter (itemSize : Option Int) : Nat → Option Int :=
  fun _ => itemSize

/-- Modelled from the spec: the utils module is not under src/. The
estimated-size getter returns the fixed item size when the configuration is
fully fixed and the uniform estimate otherwise. -/
def getEstimatedGetter (estimatedSize : Int) (itemSize : Option Int) :
    Nat → Int :=
  fun _ => itemSize.getD estimatedSize

/-- The slice of the data manager state read by onStateChange: itemCount,
itemSize and estimatedSize. Kept as a plain record with decidable equality
so that the strict-inequality comparisons of the source are expressible. -/
structure VirutalListDataManagerState where
  itemCount : Nat
  itemSize : Option Int
  estimatedSize : Int
deriving DecidableEq, Repr

/-- Calls issued to the size-and-position manager, recorded as a trace so
that the claims about which manager operations run can be stated. -/
inductive MgrCall where
  | updateConfigItemCount (n : Nat)
  | updateConfigGetters
  | resetItem (i : Nat)
deriving DecidableEq, Repr

/-- Effects emitted by the component towards the data manager. -/
inductive VLEffect where
  | nextTickUpdate
deriving DecidableEq, Repr

/-- The VirtualList component state: its props (scroll direction, width,
height), the private fields delayUpdateTimer, styleCache, the manager,
needUpdate and offset, and the data-manager state slice it reads during
update (overscan and stickyIndices). -/
structure VirtualList where
  scrollDirection : DIRECTION
  width : Int
  height : Int
  manager : SizeAndPositionManager
  delayUpdateTimer : Option Int
  styleCache : List (Nat × ItemStyle)
  needUpdate : Bool
  offset : Int
  overscan : Nat
  stickyIndices : Option (List Nat)

/-- Lookup in the style cache, which is keyed by index alone. -/
def cacheLookup (cache : List (Nat × ItemStyle)) (index : Nat) :
    Option ItemStyle :=
  (cache.find? (fun p => p.1 == index)).map Prod.snd

/-- The style construction of getStyle on a cache miss: spread STYLE_ITEM,
assign the scroll-axis position (0 for sticky, the cumulative offset
otherwise), assign the scroll-axis size, and set zIndex (elevated for
sticky, auto otherwise) and, for sticky, the position value sticky. -/
def computeItemStyle (scrollDirection : DIRECTION)
    (m : SizeAndPositionManager) (index : Nat) (sticky : Bool) : ItemStyle :=
  let sizeAndPosition := m.getSizeAndPositionForIndex index
  let size := sizeAndPosition.size
  if sticky then
    { setSizeProp scrollDirection
        (setPositionProp scrollDirection STYLE_ITEM 0) (CSSVal.num size) with
      zIndex := CSSVal.num DEFAULT_ZINDEX
      position := ItemStylePosition.sticky }
  else
    { setSizeProp scrollDirection
        (setPositionProp scrollDirection STYLE_ITEM sizeAndPosition.offset)
        (CSSVal.num size) with
      zIndex := CSSVal.auto }

/-- getStyle of the source: return the cached style when present, otherwise
compute the style from the manager record, normalize, store it in the cache
under the index, and return the stored style. -/
def VirtualList.getStyle (vl : VirtualList) (index : Nat) (sticky : Bool) :
    ItemStyle × VirtualList :=
  match cacheLookup vl.styleCache index with
  | some style => (style, vl)
  | none =>
    let stored :=
      normalizeStyle (computeItemStyle vl.scrollDirection vl.manager index sticky)
    (stored, { vl with styleCache := (index, stored) :: vl.styleCache })

/-- getContainerSize of the source: the prop selected by sizeProp of the
scroll direction (height for vertical, width for horizontal). -/
def VirtualList.getContainerSize (vl : VirtualList) : Int :=
  match vl.scrollDirection with
  | DIRECTION.vertical => vl.height
  | DIRECTION.horizontal => vl.width

/-- recomputeSizes of the source: replaces the style cache with a fresh
empty one and issues resetItem at the given index to the manager. -/
def VirtualList.recomputeSizes (vl : VirtualList) (index : Nat) :
    VirtualList × List MgrCall :=
  ({ vl with styleCache := [] }, [MgrCall.resetItem index])

/-- One render-list entry: index, style, and the data element at the index
(none when the index is out of the data bounds, matching the undefined
element access of the source). -/
structure VirutalListItemData (α : Type) where
  index : Nat
  style : ItemStyle
  item : Option α
deriving DecidableEq, Repr

/-- Pushes one render item per index in order, threading the style cache
through the successive getStyle calls. -/
def pushItems (vl : VirtualList) (idxs : List Nat) (sticky : Bool)
    (data : List α) : List (VirutalListItemData α) × VirtualList :=
  match idxs with
  | [] => ([], vl)
  | i :: rest =>
    let r1 := vl.getStyle i sticky
    let r2 := pushItems r1.2 rest sticky data
    ({ index := i, style := r1.1, item := data[i]? } :: r2.1, r2.2)

/-- The update method of the source: query the visible range; when it is
empty produce no items; otherwise push every sticky index (with the sticky
style) first, then the indices of the inclusive range start..end in order,
skipping any index contained in stickyIndices. -/
def VirtualList.update (vl : VirtualList) (data : List α) :
    List (VirutalListItemData α) × VirtualList :=
  match vl.manager.getVisibleRange vl.getContainerSize vl.offset vl.overscan with
  | none => ([], vl)
  | some (start, stop) =>
    let r1 :=
      match vl.stickyIndices with
      | some sIdx => pushItems vl sIdx true data
      | none => ([], vl)
    let rangeIdxs := (List.range' start (stop + 1 - start)).filter
      (fun i => !((vl.stickyIndices.getD []).contains i))
    let r2 := pushItems r1.2 rangeIdxs false data
    (r1.1 ++ r2.1, r2.2)

/-- updateVirutalListDataRange of the source: when the dirty flag is unset
this is a no-op; otherwise it requests a next-tick update from the data
manager and clears the dirty flag. -/
def VirtualList.updateVirutalListDataRange (vl : VirtualList) :
    VirtualList × List VLEffect :=
  if !vl.needUpdate then (vl, [])
  else ({ vl with needUpdate := false }, [VLEffect.nextTickUpdate])

/-- setScrollOffset of the source: a strict-inequality guard makes an equal
offset a no-op; otherwise the offset is stored, the dirty flag set, and the
coalesced update requested. -/
def VirtualList.setScrollOffset (vl : VirtualList) (scrollOffset : Int) :
    VirtualList × List VLEffect :=
  if vl.offset ≠ scrollOffset then
    ({ vl with offset := scrollOffset, needUpdate := true
       }).updateVirutalListDataRange
  else (vl, [])

/-- onStateChange of the source: when the item count changed, updateConfig
with the new count; when itemSize or estimatedSize changed, updateConfig
with freshly built getters; then recomputeSizes unconditionally. The issued
manager calls are recorded in a trace. -/
def VirtualList.onStateChange (vl : VirtualList)
    (prevState state : VirutalListDataManagerState) :
    VirtualList × List MgrCall :=
  let r1 :=
    if prevState.itemCount ≠ state.itemCount then
      (vl.manager.updateConfig (some state.itemCount) none none,
       [MgrCall.updateConfigItemCount state.itemCount])
    else (vl.manager, [])
  let r2 :=
    if prevState.itemSize ≠ state.itemSize ∨
        prevState.estimatedSize ≠ state.estimatedSize then
      (r1.1.updateConfig none (some (getItemSizeGetter state.itemSize))
        (some (getEstimatedGetter state.estimatedSize state.itemSize)),
       [MgrCall.updateConfigGetters])
    else (r1.1, [])
  let r3 := ({ vl with manager := r2.1 }).recomputeSizes 0
  (r3.1, r1.2 ++ r2.2 ++ r3.2)

/-- Modelled from the spec: the data manager's coalescing scheduler is not
under src/. Its state: whether a recompute is pending, whether the manager
is destroyed, the observable user state a recompute would read, and the log
of executed recomputes together with the state each one observed. -/
structure SchedState (σ : Type) where
  pending : Bool
  destroyed : Bool
  user : σ
  execs : List σ

/-- Operations driving the scheduler: a recompute request, a synchronous
mutation of the observable state, destruction, and the deferred callback
firing. -/
inductive SchedOp (σ : Type) where
  | request
  | mutate (f : σ → σ)
  | destroy
  | fire

/-- Modelled from the spec: one scheduler step. A request is a no-op when a
recompute is already pending or the manager is destroyed, and otherwise
arms the deferred callback; destroy cancels any pending recompute; fire
executes the recompute exactly once against the state as of fire time. -/
def schedStep (s : SchedState σ) : SchedOp σ → SchedState σ
  | SchedOp.request =>
    if s.destroyed || s.pending then s else { s with pending := true }
  | SchedOp.mutate f => { s with user := f s.user }
  | SchedOp.destroy => { s with pending := false, destroyed := true }
  | SchedOp.fire =>
    if s.pending then
      { s with pending := false, execs := s.execs ++ [s.user] }
    else s

/-- Runs a sequence of scheduler operations. -/
def schedRun (s : SchedState σ) (ops : List (SchedOp σ)) : SchedState σ :=
  ops.foldl schedStep s

/-- The operations available synchronously between scheduling and firing:
recompute requests and state mutations. -/
inductive SyncOp (σ : Type) where
  | request
  | mutate (f : σ → σ)

/-- Embeds a synchronous operation into the scheduler alphabet. -/
def SyncOp.toSchedOp : SyncOp σ → SchedOp σ
  | SyncOp.request => SchedOp.request
  | SyncOp.mutate f => SchedOp.mutate f

/-- Runs a synchronous phase on the scheduler. -/
def runSync (s : SchedState σ) (ops : List (SyncOp σ)) : SchedState σ :=
  ops.foldl (fun st op => schedStep st op.toSchedOp) s

/-- The net effect of a synchronous phase on the observable state alone. -/
def applySync (ops : List (SyncOp σ)) (u : σ) : σ :=
  ops.foldl (fun x op =>
    match op with
    | SyncOp.request => x
    | SyncOp.mutate f => f x) u

/-- Whether a synchronous phase contains at least one recompute request. -/
def containsRequest (ops : List (SyncOp σ)) : Bool :=
  ops.any (fun op =>
    match op with
    | SyncOp.request => true
    | SyncOp.mutate _ => false)

/-- componentWillUnmount of the source: clears the delayed-update timer and
destroys the data manager (destroy is modelled from the spec: it cancels
any pending recompute and marks the manager destroyed). -/
def VirtualList.componentWillUnmount (vl : VirtualList)
    (dm : SchedState σ) : VirtualList × SchedState σ :=
  ({ vl with delayUpdateTimer := none }, schedStep dm SchedOp.destroy)

/-- The scroll-axis offset stored in a style: top for vertical scrolling,
left for horizontal. -/
def scrollAxisPos (d : DIRECTION) (s : ItemStyle) : Int :=
  match d with
  | DIRECTION.vertical => s.top
  | DIRECTION.horizontal => s.left

/-- The scroll-axis extent stored in a style: height for vertical
scrolling, width for horizontal. -/
def scrollAxisSizeVal (d : DIRECTION) (s : ItemStyle) : CSSVal :=
  match d with
  | DIRECTION.vertical => s.height
  | DIRECTION.horizontal => s.width

/-- The cross-axis extent stored in a style: width for vertical scrolling,
height for horizontal. -/
def crossAxisSize (d : DIRECTION) (s : ItemStyle) : CSSVal :=
  match d with
  | DIRECTION.vertical => s.width
  | DIRECTION.horizontal => s.height

/-- A manager over five items of fixed size 20, for concrete instances. -/
def mgrFixed20 : SizeAndPositionManager :=
  { itemCount := 5
    itemSizeGetter := fun _ => some 20
    estimatedSizeGetter := fun _ => 20 }

/-- A manager over one item of fixed size 20. -/
def mgrOne20 : SizeAndPositionManager :=
  { itemCount := 1
    itemSizeGetter := fun _ => some 20
    estimatedSizeGetter := fun _ => 20 }

/-- A manager with no items. -/
def mgrEmpty : SizeAndPositionManager :=
  { itemCount := 0
    itemSizeGetter := fun _ => some 20
    estimatedSizeGetter := fun _ => 20 }

/-- A baseline concrete component: vertical, container height 50, five
fixed-size-20 items, empty cache, no sticky indices. -/
def baseVL : VirtualList :=
  { scrollDirection := DIRECTION.vertical
    width := 100
    height := 50
    manager := mgrFixed20
    delayUpdateTimer := none
    styleCache := []
    needUpdate := false
    offset := 0
    overscan := 0
    stickyIndices := none }

/-- Concrete instance for the C1 witness: scrolled to offset 25 with sticky
index 4 (outside the visible range 1..3). -/
def vlC1w : VirtualList :=
  { baseVL with offset := 25, stickyIndices := some [4] }

/-- Concrete data for the C1 witness. -/
def dataC1w : List Nat := [10, 11, 12, 13, 14]

/-- Concrete instance for the C1 counterexample: container extent 0 with a
configured sticky index. -/
def vlC1x : VirtualList :=
  { baseVL with height := 0, manager := mgrOne20, stickyIndices := some [0] }

/-- Concrete instance for the C2 counterexample: horizontal scrolling. -/
def vlC2x : VirtualList :=
  { baseVL with scrollDirection := DIRECTION.horizontal }

/-- Concrete instance for the C4 witness: zero items. -/
def vlC4w : VirtualList :=
  { baseVL with manager := mgrEmpty }

/-- Concrete instance for the C4 counterexample: one 20-sized item but a
container extent of 0. -/
def vlC4x : VirtualList :=
  { baseVL with height := 0, manager := mgrOne20 }

/-- Concrete instance for the C6 and C9 witnesses: a cache holding an entry
for index 3. -/
def vlC6w : VirtualList :=
  { baseVL with styleCache := [(3, STYLE_ITEM)] }

/-- Concrete previous data-manager state for the C3 witness. -/
def prevC3 : VirutalListDataManagerState :=
  { itemCount := 5, itemSize := some 20, estimatedSize := 20 }

/-- Concrete next data-manager state for the C3 witness: both the item
count and the size configuration changed. -/
def stateC3 : VirutalListDataManagerState :=
  { itemCount := 7, itemSize := some 30, estimatedSize := 30 }

/-- Concrete synchronous phase for the C7 witness: two requests
interleaved with two mutations of an Int state. -/
def opsC7 : List (SyncOp Int) :=
  [SyncOp.request, SyncOp.mutate (fun x => x + 1),
   SyncOp.request, SyncOp.mutate (fun x => x + 2)]

/-- Concrete scheduler state for the C8 witness: a recompute is pending and
nothing has executed yet. -/
def dmC8 : SchedState Int :=
  { pending := true, destroyed := false, user := 0, execs := [] }

/-- Concrete component for the C8 witness, with an armed delayed-update
timer. -/
def vlC8w : VirtualList :=
  { baseVL with delayUpdateTimer := some 3 }

theorem cacheLookup_nil (i : Nat) : cacheLookup [] i = none := rfl

theorem cacheLookup_cons (j : Nat) (s : ItemStyle) (c : List (Nat × ItemStyle))
    (i : Nat) :
    cacheLookup ((j, s) :: c) i = if j = i then some s else cacheLookup c i := by
  by_cases h : j = i
  · simp [cacheLookup, List.find?, h]
  · have hb : (j == i) = false := by simp [h]
    simp [cacheLookup, List.find?, hb, h]

theorem getStyle_hit (vl : VirtualList) (i : Nat) (s : Bool) (st : ItemStyle)
    (h : cacheLookup vl.styleCache i = some st) :
    vl.getStyle i s = (st, vl) := by
  unfold VirtualList.getStyle
  rw [h]

theorem getStyle_miss (vl : VirtualList) (i : Nat) (s : Bool)
    (h : cacheLookup vl.styleCache i = none) :
    vl.getStyle i s =
      (normalizeStyle (computeItemStyle vl.scrollDirection vl.manager i s),
       { vl with styleCache :=
          (i, normalizeStyle (computeItemStyle vl.scrollDirection vl.manager i s))
            :: vl.styleCache }) := by
  unfold VirtualList.getStyle
  rw [h]

theorem pushItems_spec {α : Type} (data : List α) (sticky : Bool) :
    ∀ (idxs : List Nat) (vl : VirtualList), idxs.Nodup →
      (∀ i ∈ idxs, cacheLookup vl.styleCache i = none) →
      (pushItems vl idxs sticky data).1 =
        idxs.map (fun i =>
          { index := i
            style := normalizeStyle
              (computeItemStyle vl.scrollDirection vl.manager i sticky)
            item := data[i]? }) ∧
      ((pushItems vl idxs sticky data).2).scrollDirection = vl.scrollDirection ∧
      ((pushItems vl idxs sticky data).2).manager = vl.manager ∧
      ∀ j, j ∉ idxs →
        cacheLookup ((pushItems vl idxs sticky data).2).styleCache j =
          cacheLookup vl.styleCache j := by
  intro idxs
  induction idxs with
  | nil =>
    intro vl _ _
    exact ⟨rfl, rfl, rfl, fun j _ => rfl⟩
  | cons i rest ih =>
    intro vl hn hf
    have hmiss : cacheLookup vl.styleCache i = none :=
      hf i (List.mem_cons_self i rest)
    have hnotmem : i ∉ rest := (List.nodup_cons.mp hn).1
    have hrest : rest.Nodup := (List.nodup_cons.mp hn).2
    have hg := getStyle_miss vl i sticky hmiss
    have hf1 : ∀ j ∈ rest,
        cacheLookup ((vl.getStyle i sticky).2).styleCache j = none := by
      intro j hj
      have hji : i ≠ j := fun hij => hnotmem (hij ▸ hj)
      rw [hg, cacheLookup_cons, if_neg hji]
      exact hf j (List.mem_cons_of_mem i hj)
    obtain ⟨e1, e2, e3, e4⟩ := ih ((vl.getStyle i sticky).2) hrest hf1
    have hdir : ((vl.getStyle i sticky).2).scrollDirection = vl.scrollDirection := by
      rw [hg]
    have hmgr : ((vl.getStyle i sticky).2).manager = vl.manager := by
      rw [hg]
    have hpush : pushItems vl (i :: rest) sticky data =
        ({ index := i, style := (vl.getStyle i sticky).1, item := data[i]? }
           :: (pushItems ((vl.getStyle i sticky).2) rest sticky data).1,
         (pushItems ((vl.getStyle i sticky).2) rest sticky data).2) := rfl
    have hhead : (vl.getStyle i sticky).1 =
        normalizeStyle (computeItemStyle vl.scrollDirection vl.manager i sticky) := by
      rw [hg]
    refine ⟨?_, ?_, ?_, ?_⟩
    · rw [hpush]
      simp only [List.map_cons]
      rw [e1]
      simp only [hdir, hmgr]
      rw [hhead]
    · rw [hpush]
      rw [e2, hdir]
    · rw [hpush]
      rw [e3, hmgr]
    · intro j hj
      have hj1 : j ∉ rest := fun hjr => hj (List.mem_cons_of_mem i hjr)
      have hj2 : i ≠ j := fun hij => hj (hij ▸ List.mem_cons_self i rest)
      rw [hpush]
      rw [e4 j hj1, hg, cacheLookup_cons, if_neg hj2]

theorem update_none {α : Type} (vl : VirtualList) (data : List α)
    (h : vl.manager.getVisibleRange vl.getContainerSize vl.offset
      vl.overscan = none) :
    vl.update data = ([], vl) := by
  unfold VirtualList.update
  rw [h]

theorem update_some {α : Type} (vl : VirtualList) (data : List α)
    (start stop : Nat) (sIdx : List Nat)
    (h : vl.manager.getVisibleRange vl.getContainerSize vl.offset
      vl.overscan = some (start, stop))
    (hs : vl.stickyIndices = some sIdx) :
    vl.update data =
      ((pushItems vl sIdx true data).1 ++
        (pushItems (pushItems vl sIdx true data).2
          ((List.range' start (stop + 1 - start)).filter
            (fun i => !(sIdx.contains i))) false data).1,
       (pushItems (pushItems vl sIdx true data).2
          ((List.range' start (stop + 1 - start)).filter
            (fun i => !(sIdx.contains i))) false data).2) := by
  unfold VirtualList.update
  rw [h, hs]
  rfl

/-- Claim C1 (amended): whenever the visible range is defined (getVisibleRange
returns a start and end) and the configured stickyIndices are duplicate-free,
starting from an empty style cache the render list produced by update includes
every index in stickyIndices exactly once, first and in their given order,
each paired with data[index] and its sticky style, followed by the indices of
the visible range in increasing order with any index already in stickyIndices
skipped; sticky items are included regardless of whether they fall inside the
range. (The original unconditional claim fails when the range is empty.) -/
theorem c1_update_sticky_render_list {α : Type} (vl : VirtualList)
    (data : List α) (sIdx : List Nat) (start stop : Nat)
    (hr : vl.manager.getVisibleRange vl.getContainerSize vl.offset
      vl.overscan = some (start, stop))
    (hs : vl.stickyIndices = some sIdx)
    (hn : sIdx.Nodup)
    (hc : vl.styleCache = []) :
    (vl.update data).1 =
      sIdx.map (fun i =>
        { index := i
          style := normalizeStyle
            (computeItemStyle vl.scrollDirection vl.manager i true)
          item := data[i]? }) ++
      ((List.range' start (stop + 1 - start)).filter
        (fun i => !(sIdx.contains i))).map (fun i =>
        { index := i
          style := normalizeStyle
            (computeItemStyle vl.scrollDirection vl.manager i false)
          item := data[i]? }) ∧
    ∀ i ∈ sIdx,
      (((vl.update data).1).map VirutalListItemData.index).count i = 1 := by
  have hfresh : ∀ i ∈ sIdx, cacheLookup vl.styleCache i = none := by
    intro i _
    rw [hc]
    rfl
  obtain ⟨e1, e2, e3, e4⟩ := pushItems_spec data true sIdx vl hn hfresh
  set L := (List.range' start (stop + 1 - start)).filter
    (fun i => !(sIdx.contains i)) with hL
  have hLnodup : L.Nodup :=
    List.Nodup.filter _ (List.nodup_range' start (stop + 1 - start))
  have hLnotmem : ∀ j ∈ L, j ∉ sIdx := by
    intro j hj hmem
    have hp := (List.mem_filter.mp hj).2
    have hcont : sIdx.contains j = true := List.elem_iff.mpr hmem
    rw [hcont] at hp
    exact absurd hp (by decide)
  have hfresh2 : ∀ j ∈ L,
      cacheLookup ((pushItems vl sIdx true data).2).styleCache j = none := by
    intro j hj
    rw [e4 j (hLnotmem j hj), hc]
    rfl
  obtain ⟨f1, _, _, _⟩ :=
    pushItems_spec data false L ((pushItems vl sIdx true data).2) hLnodup hfresh2
  have hmain : (vl.update data).1 =
      sIdx.map (fun i =>
        { index := i
          style := normalizeStyle
            (computeItemStyle vl.scrollDirection vl.manager i true)
          item := data[i]? }) ++
      L.map (fun i =>
        { index := i
          style := normalizeStyle
            (computeItemStyle vl.scrollDirection vl.manager i false)
          item := data[i]? }) := by
    rw [update_some vl data start stop sIdx hr hs]
    rw [← hL]
    show (pushItems vl sIdx true data).1 ++
      (pushItems (pushItems vl sIdx true data).2 L false data).1 = _
    rw [e1, f1]
    simp only [e2, e3]
  refine ⟨hmain, ?_⟩
  intro i hi
  have hA : (sIdx.map (fun i =>
      ({ index := i
         style := normalizeStyle
           (computeItemStyle vl.scrollDirection vl.manager i true)
         item := data[i]? } : VirutalListItemData α))).map
        VirutalListItemData.index = sIdx := by
    rw [List.map_map]
    exact List.map_id'' (fun x => rfl) sIdx
  have hB : (L.map (fun i =>
      ({ index := i
         style := normalizeStyle
           (computeItemStyle vl.scrollDirection vl.manager i false)
         item := data[i]? } : VirutalListItemData α))).map
        VirutalListItemData.index = L := by
    rw [List.map_map]
    exact List.map_id'' (fun x => rfl) L
  rw [hmain, List.map_append, hA, hB, List.count_append]
  have h1 : sIdx.count i = 1 := List.count_eq_one_of_mem hn hi
  have h2 : L.count i = 0 := List.count_eq_zero.mpr (fun hiL => hLnotmem i hiL hi)
  rw [h1, h2]

/-- Witness for C1 at a concrete instance: sticky index 4 lies outside the
visible range 1..3 and is still rendered first, exactly once. -/
theorem c1_update_sticky_render_list_witness :
    vlC1w.manager.getVisibleRange vlC1w.getContainerSize vlC1w.offset
      vlC1w.overscan = some (1, 3) ∧
    (vlC1w.update dataC1w).1.map VirutalListItemData.index = [4, 1, 2, 3] ∧
    ((vlC1w.update dataC1w).1.map VirutalListItemData.index).count 4 = 1 := by
  have h := c1_update_sticky_render_list vlC1w dataC1w [4] 1 3 (by decide) rfl
    (by decide) rfl
  refine ⟨by decide, ?_, h.2 4 (by decide)⟩
  rw [h.1]
  rfl

/-- Counterexample to C1 as stated: with a configured sticky index but a
container extent of 0, the produced render list is empty, so the sticky
index is not included at all (the claim requires it exactly once). -/
theorem c1_counterexample :
    vlC1x.stickyIndices = some [0] ∧
    (vlC1x.update ([42] : List Nat)).1 = [] ∧
    ((vlC1x.update ([42] : List Nat)).1.map VirutalListItemData.index).count 0
      = 0 := by
  refine ⟨rfl, ?_, ?_⟩ <;> decide

/-- Claim C2 (amended): on a cache miss, getStyle pins a sticky item to the
scroll-axis leading edge (scroll-axis position 0, position sticky, elevated
zIndex) and places a normal item at its computed scroll-axis offset with
default layering, and sets the scroll-axis extent to the item size; the
cross-axis extent is the container's full cross-axis size (100 percent) for
the vertical direction, but auto for the horizontal direction. (The original
claim of a 100-percent cross-axis extent in both directions fails for
horizontal.) -/
theorem c2_getStyle_axis (vl : VirtualList) (i : Nat) (s : Bool)
    (h : cacheLookup vl.styleCache i = none) :
    (s = true →
      ((vl.getStyle i s).1).position = ItemStylePosition.sticky ∧
      scrollAxisPos vl.scrollDirection ((vl.getStyle i s).1) = 0 ∧
      ((vl.getStyle i s).1).zIndex = CSSVal.num DEFAULT_ZINDEX) ∧
    (s = false →
      ((vl.getStyle i s).1).position = ItemStylePosition.absolute ∧
      scrollAxisPos vl.scrollDirection ((vl.getStyle i s).1) =
        (vl.manager.getSizeAndPositionForIndex i).offset ∧
      ((vl.getStyle i s).1).zIndex = CSSVal.auto) ∧
    scrollAxisSizeVal vl.scrollDirection ((vl.getStyle i s).1) =
      CSSVal.num ((vl.manager.getSizeAndPositionForIndex i).size) ∧
    crossAxisSize vl.scrollDirection ((vl.getStyle i s).1) =
      (match vl.scrollDirection with
       | DIRECTION.vertical => CSSVal.pct100
       | DIRECTION.horizontal => CSSVal.auto) := by
  have hg := getStyle_miss vl i s h
  have h1 : (vl.getStyle i s).1 =
      computeItemStyle vl.scrollDirection vl.manager i s := by
    rw [hg]
    rfl
  rw [h1]
  cases hd : vl.scrollDirection <;> cases s <;>
    simp [computeItemStyle, setSizeProp, setPositionProp, STYLE_ITEM,
      scrollAxisPos, scrollAxisSizeVal, crossAxisSize,
      SizeAndPositionManager.getSizeAndPositionForIndex]

/-- Witness for C2 at a concrete instance: vertical direction, index 1,
sticky, empty cache. -/
theorem c2_getStyle_axis_witness :
    cacheLookup baseVL.styleCache 1 = none ∧
    ((baseVL.getStyle 1 true).1).position = ItemStylePosition.sticky ∧
    scrollAxisPos baseVL.scrollDirection ((baseVL.getStyle 1 true).1) = 0 ∧
    ((baseVL.getStyle 1 true).1).zIndex = CSSVal.num DEFAULT_ZINDEX ∧
    crossAxisSize baseVL.scrollDirection ((baseVL.getStyle 1 true).1) =
      CSSVal.pct100 := by
  have h := c2_getStyle_axis baseVL 1 true rfl
  obtain ⟨hp, ho, hz⟩ := h.1 rfl
  exact ⟨rfl, hp, ho, hz, h.2.2.2⟩

/-- Counterexample to C2 as stated: for the horizontal direction the
cross-axis extent of a freshly computed style is auto, not the container's
full cross-axis size. -/
theorem c2_counterexample :
    vlC2x.scrollDirection = DIRECTION.horizontal ∧
    crossAxisSize vlC2x.scrollDirection ((vlC2x.getStyle 0 true).1) =
      CSSVal.auto ∧
    CSSVal.auto ≠ CSSVal.pct100 := by
  refine ⟨rfl, ?_, by decide⟩
  decide

/-- Claim C4 (amended): when itemCount = 0 or the container extent is at
most 0, getVisibleRange returns an explicit empty range (none, not an
error) and update produces an empty render list, for every scroll offset
and container size; and when itemCount = 0, getTotalSize() returns 0. (The
original claim also asserted getTotalSize() = 0 in the container-extent
case, which fails when items exist.) -/
theorem c4_empty_range {α : Type} (vl : VirtualList) (data : List α)
    (h : vl.manager.itemCount = 0 ∨ vl.getContainerSize ≤ 0) :
    vl.manager.getVisibleRange vl.getContainerSize vl.offset vl.overscan
      = none ∧
    vl.update data = ([], vl) ∧
    (vl.manager.itemCount = 0 → vl.manager.getTotalSize = 0) := by
  have hr : vl.manager.getVisibleRange vl.getContainerSize vl.offset
      vl.overscan = none := by
    unfold SizeAndPositionManager.getVisibleRange
    rw [if_pos h]
  refine ⟨hr, update_none vl data hr, ?_⟩
  intro h0
  unfold SizeAndPositionManager.getTotalSize
  rw [h0]
  rfl

/-- Witness for C4 at a concrete instance with zero items: empty range,
empty render list and total size 0. -/
theorem c4_empty_range_witness :
    vlC4w.manager.itemCount = 0 ∧
    vlC4w.manager.getVisibleRange vlC4w.getContainerSize vlC4w.offset
      vlC4w.overscan = none ∧
    vlC4w.update ([] : List Nat) = ([], vlC4w) ∧
    vlC4w.manager.getTotalSize = 0 := by
  have h := c4_empty_range vlC4w ([] : List Nat) (Or.inl rfl)
  exact ⟨rfl, h.1, h.2.1, h.2.2 rfl⟩

/-- Counterexample to C4 as stated: with one 20-sized item and a container
extent of 0 the range is empty and the render list is empty, but
getTotalSize() is 20, not 0. -/
theorem c4_counterexample :
    vlC4x.getContainerSize ≤ 0 ∧
    vlC4x.manager.getVisibleRange vlC4x.getContainerSize vlC4x.offset
      vlC4x.overscan = none ∧
    vlC4x.manager.getTotalSize = 20 ∧
    (20 : Int) ≠ 0 := by
  refine ⟨?_, ?_, ?_, ?_⟩ <;> decide

/-- Claim C5: setScrollOffset with a value numerically equal to the current
offset is a no-op (state and dirty flag unchanged, no recompute request);
with a different value it first stores the new offset and sets the dirty
flag, then issues exactly one coalesced recompute request. -/
theorem c5_setScrollOffset (vl : VirtualList) (v : Int) :
    (vl.offset = v → vl.setScrollOffset v = (vl, [])) ∧
    (vl.offset ≠ v →
      vl.setScrollOffset v =
        ({ vl with offset := v, needUpdate := true
           }).updateVirutalListDataRange ∧
      ((vl.setScrollOffset v).1).offset = v ∧
      (vl.setScrollOffset v).2 = [VLEffect.nextTickUpdate]) := by
  constructor
  · intro h
    unfold VirtualList.setScrollOffset
    rw [if_neg (fun hne => hne h)]
  · intro h
    have hu : vl.setScrollOffset v =
        ({ vl with offset := v, needUpdate := true
           }).updateVirutalListDataRange := by
      unfold VirtualList.setScrollOffset
      rw [if_pos h]
    refine ⟨hu, ?_, ?_⟩ <;> rw [hu] <;> rfl

/-- Witness for C5 at a concrete instance: current offset 0, new offset 5. -/
theorem c5_setScrollOffset_witness :
    baseVL.offset ≠ (5 : Int) ∧
    ((baseVL.setScrollOffset 5).1).offset = 5 ∧
    (baseVL.setScrollOffset 5).2 = [VLEffect.nextTickUpdate] ∧
    baseVL.setScrollOffset 0 = (baseVL, []) := by
  have h := c5_setScrollOffset baseVL 5
  have hne : baseVL.offset ≠ (5 : Int) := by decide
  obtain ⟨-, ho, he⟩ := h.2 hne
  exact ⟨hne, ho, he, (c5_setScrollOffset baseVL 0).1 rfl⟩

/-- Claim C6: getStyle returns the cached entry when one is present for the
index and otherwise computes the style from
manager.getSizeAndPositionForIndex (via the style construction) and stores
it under the index; every invocation of recomputeSizes discards the entire
style cache at once. -/
theorem c6_getStyle_memoized (vl : VirtualList) (i : Nat) (s : Bool)
    (st : ItemStyle) :
    (cacheLookup vl.styleCache i = some st → vl.getStyle i s = (st, vl)) ∧
    (cacheLookup vl.styleCache i = none →
      (vl.getStyle i s).1 =
        normalizeStyle (computeItemStyle vl.scrollDirection vl.manager i s) ∧
      cacheLookup ((vl.getStyle i s).2).styleCache i =
        some ((vl.getStyle i s).1)) ∧
    ∀ k, ((vl.recomputeSizes k).1).styleCache = [] := by
  refine ⟨fun h => getStyle_hit vl i s st h, fun h => ?_, fun k => rfl⟩
  have hg := getStyle_miss vl i s h
  constructor
  · rw [hg]
  · rw [hg]
    rw [cacheLookup_cons, if_pos rfl]

/-- Witness for C6 at concrete instances: a cache hit on index 3 returns
the cached style unchanged, a miss on index 0 stores the computed style,
and recomputeSizes empties the cache. -/
theorem c6_getStyle_memoized_witness :
    cacheLookup vlC6w.styleCache 3 = some STYLE_ITEM ∧
    vlC6w.getStyle 3 false = (STYLE_ITEM, vlC6w) ∧
    cacheLookup vlC6w.styleCache 0 = none ∧
    cacheLookup ((vlC6w.getStyle 0 false).2).styleCache 0 =
      some ((vlC6w.getStyle 0 false).1) ∧
    ((vlC6w.recomputeSizes 0).1).styleCache = [] := by
  have h := c6_getStyle_memoized vlC6w 3 false STYLE_ITEM
  have h0 := c6_getStyle_memoized vlC6w 0 false STYLE_ITEM
  exact ⟨rfl, h.1 rfl, rfl, (h0.2.1 rfl).2, h.2.2 0⟩

/-- Claim C9: the style cache key does not include the sticky flag: a
cached entry for an index is returned for any flag value, and after a first
call cached a style under some flag, a second call with any flag returns
that same style with the state unchanged. -/
theorem c9_cache_key_ignores_sticky (vl : VirtualList) (i : Nat)
    (s s' : Bool) (st : ItemStyle) :
    (cacheLookup vl.styleCache i = some st →
      vl.getStyle i s' = (st, vl) ∧ vl.getStyle i s = vl.getStyle i s') ∧
    (cacheLookup vl.styleCache i = none →
      ((vl.getStyle i s).2).getStyle i s' =
        ((vl.getStyle i s).1, (vl.getStyle i s).2)) := by
  constructor
  · intro h
    rw [getStyle_hit vl i s' st h, getStyle_hit vl i s st h]
    exact ⟨rfl, rfl⟩
  · intro h
    have hg := getStyle_miss vl i s h
    have hcached : cacheLookup ((vl.getStyle i s).2).styleCache i =
        some ((vl.getStyle i s).1) := by
      rw [hg]
      rw [cacheLookup_cons, if_pos rfl]
    exact getStyle_hit ((vl.getStyle i s).2) i s' ((vl.getStyle i s).1) hcached

/-- Witness for C9 at a concrete instance: the first call with the normal
flag fixes the style; a second call with the sticky flag returns the same
(normal) style. -/
theorem c9_cache_key_ignores_sticky_witness :
    cacheLookup baseVL.styleCache 2 = none ∧
    ((baseVL.getStyle 2 false).2).getStyle 2 true =
      ((baseVL.getStyle 2 false).1, (baseVL.getStyle 2 false).2) ∧
    ((baseVL.getStyle 2 false).1).position = ItemStylePosition.absolute ∧
    vlC6w.getStyle 3 true = (STYLE_ITEM, vlC6w) := by
  have h := c9_cache_key_ignores_sticky baseVL 2 false true STYLE_ITEM
  have h2 := c9_cache_key_ignores_sticky vlC6w 3 false true STYLE_ITEM
  exact ⟨rfl, h.2 rfl, by decide, (h2.1 rfl).1⟩

/-- Claim C10: every state-change notification clears the entire style
cache and invalidates the manager from index 0 via recomputeSizes
unconditionally, even when neither itemCount nor itemSize nor estimatedSize
changed: after any onStateChange the style cache is empty and the last
manager call issued is resetItem 0. -/
theorem c10_onStateChange_always_clears (vl : VirtualList)
    (prevState state : VirutalListDataManagerState) :
    ((vl.onStateChange prevState state).1).styleCache = [] ∧
    MgrCall.resetItem 0 ∈ (vl.onStateChange prevState state).2 ∧
    ((vl.onStateChange prevState state).2).getLast? =
      some (MgrCall.resetItem 0) := by
  unfold VirtualList.onStateChange
  by_cases h1 : prevState.itemCount ≠ state.itemCount <;>
    by_cases h2 : prevState.itemSize ≠ state.itemSize ∨
      prevState.estimatedSize ≠ state.estimatedSize <;>
    simp [h1, h2, VirtualList.recomputeSizes, List.getLast?_concat]

/-- Claim C3: on a state-change notification, if itemCount changed the
manager receives updateConfig with the new itemCount; if itemSize or
estimatedSize changed the manager receives updateConfig with freshly built
item-size and estimated-size getters, the style cache is fully cleared, and
the manager is invalidated from index 0. -/
theorem c3_onStateChange_config (vl : VirtualList)
    (prevState state : VirutalListDataManagerState) :
    (prevState.itemCount ≠ state.itemCount →
      MgrCall.updateConfigItemCount state.itemCount ∈
        (vl.onStateChange prevState state).2 ∧
      ((vl.onStateChange prevState state).1).manager.itemCount =
        state.itemCount) ∧
    (prevState.itemSize ≠ state.itemSize ∨
        prevState.estimatedSize ≠ state.estimatedSize →
      MgrCall.updateConfigGetters ∈ (vl.onStateChange prevState state).2 ∧
      ((vl.onStateChange prevState state).1).manager.itemSizeGetter =
        getItemSizeGetter state.itemSize ∧
      ((vl.onStateChange prevState state).1).manager.estimatedSizeGetter =
        getEstimatedGetter state.estimatedSize state.itemSize ∧
      ((vl.onStateChange prevState state).1).styleCache = [] ∧
      MgrCall.resetItem 0 ∈ (vl.onStateChange prevState state).2) := by
  unfold VirtualList.onStateChange
  by_cases h1 : prevState.itemCount ≠ state.itemCount <;>
    by_cases h2 : prevState.itemSize ≠ state.itemSize ∨
      prevState.estimatedSize ≠ state.estimatedSize <;>
    simp [h1, h2, VirtualList.recomputeSizes,
      SizeAndPositionManager.updateConfig]

/-- Witness for C3 at a concrete instance where both the item count and the
size configuration changed. -/
theorem c3_onStateChange_config_witness :
    prevC3.itemCount ≠ stateC3.itemCount ∧
    (prevC3.itemSize ≠ stateC3.itemSize ∨
      prevC3.estimatedSize ≠ stateC3.estimatedSize) ∧
    MgrCall.updateConfigItemCount 7 ∈ (baseVL.onStateChange prevC3 stateC3).2 ∧
    ((baseVL.onStateChange prevC3 stateC3).1).manager.itemCount = 7 ∧
    MgrCall.updateConfigGetters ∈ (baseVL.onStateChange prevC3 stateC3).2 ∧
    ((baseVL.onStateChange prevC3 stateC3).1).styleCache = [] ∧
    MgrCall.resetItem 0 ∈ (baseVL.onStateChange prevC3 stateC3).2 := by
  have h := c3_onStateChange_config baseVL prevC3 stateC3
  have h1 : prevC3.itemCount ≠ stateC3.itemCount := by decide
  have h2 : prevC3.itemSize ≠ stateC3.itemSize ∨
      prevC3.estimatedSize ≠ stateC3.estimatedSize := by
    left
    decide
  obtain ⟨ha, hb⟩ := h.1 h1
  obtain ⟨hc, -, -, hd, he⟩ := h.2 h2
  exact ⟨h1, h2, ha, hb, hc, hd, he⟩

theorem schedStep_request_not_destroyed {σ : Type} (s : SchedState σ)
    (hd : s.destroyed = false) :
    schedStep s SchedOp.request =
      if s.pending then s else { s with pending := true } := by
  unfold schedStep
  rw [hd]
  simp

theorem schedStep_fire_not_pending {σ : Type} (s : SchedState σ)
    (h : s.pending = false) : schedStep s SchedOp.fire = s := by
  unfold schedStep
  rw [h]
  simp

theorem runSync_spec {σ : Type} :
    ∀ (ops : List (SyncOp σ)) (s : SchedState σ), s.destroyed = false →
      (runSync s ops).destroyed = false ∧
      (runSync s ops).execs = s.execs ∧
      (runSync s ops).user = applySync ops s.user ∧
      (runSync s ops).pending = (s.pending || containsRequest ops) := by
  intro ops
  induction ops with
  | nil =>
    intro s hd
    exact ⟨hd, rfl, rfl, by simp [containsRequest, runSync]⟩
  | cons op rest ih =>
    intro s hd
    cases op with
    | request =>
      have hstep : runSync s (SyncOp.request :: rest) =
          runSync (schedStep s SchedOp.request) rest := rfl
      rw [hstep, schedStep_request_not_destroyed s hd]
      by_cases hp : s.pending
      · rw [if_pos hp]
        obtain ⟨a, b, c, d⟩ := ih s hd
        refine ⟨a, b, c, ?_⟩
        rw [d, hp]
        simp [containsRequest]
      · rw [if_neg hp]
        obtain ⟨a, b, c, d⟩ := ih { s with pending := true } hd
        refine ⟨a, b, c, ?_⟩
        rw [d]
        have hp' : s.pending = false := by
          cases hhh : s.pending
          · rfl
          · exact absurd hhh hp
        rw [hp']
        simp [containsRequest]
    | mutate f =>
      have hstep : runSync s (SyncOp.mutate f :: rest) =
          runSync { s with user := f s.user } rest := rfl
      rw [hstep]
      obtain ⟨a, b, c, d⟩ := ih { s with user := f s.user } hd
      refine ⟨a, b, c, ?_⟩
      rw [d]
      simp [containsRequest]

/-- Claim C7: any number of synchronous recompute requests (N at least one,
freely interleaved with state mutations) before the deferred callback fires
results in exactly one recompute execution, and that execution observes the
state as of fire time (the result of all the mutations), not any
intermediate state. -/
theorem c7_coalesced_recompute {σ : Type} (u0 : σ) (ops : List (SyncOp σ))
    (h : containsRequest ops = true) :
    (schedStep (runSync ⟨false, false, u0, []⟩ ops) SchedOp.fire).execs =
      [applySync ops u0] ∧
    (schedStep (runSync ⟨false, false, u0, []⟩ ops) SchedOp.fire).user =
      applySync ops u0 := by
  obtain ⟨hd, he, hu, hp⟩ :=
    runSync_spec ops (⟨false, false, u0, []⟩ : SchedState σ) rfl
  have hpend : (runSync (⟨false, false, u0, []⟩ : SchedState σ) ops).pending
      = true := by
    rw [hp, h]
    rfl
  have hfire : schedStep (runSync (⟨false, false, u0, []⟩ : SchedState σ) ops)
      SchedOp.fire =
      { runSync (⟨false, false, u0, []⟩ : SchedState σ) ops with
        pending := false
        execs := (runSync (⟨false, false, u0, []⟩ : SchedState σ) ops).execs ++
          [(runSync (⟨false, false, u0, []⟩ : SchedState σ) ops).user] } := by
    unfold schedStep
    rw [hpend]
    rfl
  rw [hfire]
  constructor
  · show (runSync (⟨false, false, u0, []⟩ : SchedState σ) ops).execs ++
      [(runSync (⟨false, false, u0, []⟩ : SchedState σ) ops).user] = _
    rw [he, hu]
    rfl
  · show (runSync (⟨false, false, u0, []⟩ : SchedState σ) ops).user = _
    exact hu

/-- Witness for C7 at a concrete phase: two requests interleaved with two
mutations produce one execution observing the final state 3. -/
theorem c7_coalesced_recompute_witness :
    containsRequest opsC7 = true ∧
    (schedStep (runSync (⟨false, false, 0, []⟩ : SchedState Int) opsC7)
      SchedOp.fire).execs = [3] := by
  exact ⟨rfl, (c7_coalesced_recompute (0 : Int) opsC7 rfl).1⟩

/-- Claim C8: destroying the component cancels everything: after
componentWillUnmount the delayed-update timer is cleared, the data manager
is destroyed with no recompute pending, and a previously scheduled
recompute never fires (any number of later fire ticks execute nothing). -/
theorem c8_destroy_cancels {σ : Type} (vl : VirtualList) (dm : SchedState σ)
    (hp : dm.pending = true) (he : dm.execs = []) :
    ((vl.componentWillUnmount dm).1).delayUpdateTimer = none ∧
    ((vl.componentWillUnmount dm).2).destroyed = true ∧
    ((vl.componentWillUnmount dm).2).pending = false ∧
    ∀ k, (schedRun ((vl.componentWillUnmount dm).2)
      (List.replicate k SchedOp.fire)).execs = [] := by
  have hd : (vl.componentWillUnmount dm).2 =
      { dm with pending := false, destroyed := true } := rfl
  have hgen : ∀ (k : Nat) (s : SchedState σ), s.pending = false →
      s.execs = [] →
      (schedRun s (List.replicate k SchedOp.fire)).execs = [] := by
    intro k
    induction k with
    | zero =>
      intro s _ hse
      exact hse
    | succ n ih =>
      intro s hsp hse
      rw [List.replicate_succ]
      show (schedRun (schedStep s SchedOp.fire)
        (List.replicate n SchedOp.fire)).execs = []
      rw [schedStep_fire_not_pending s hsp]
      exact ih s hsp hse
  refine ⟨rfl, by rw [hd], by rw [hd], ?_⟩
  intro k
  exact hgen k _ (by rw [hd]) (by rw [hd]; exact he)

/-- Witness for C8 at a concrete instance: a pending recompute, then
unmount, then two fire ticks: nothing executes. -/
theorem c8_destroy_cancels_witness :
    dmC8.pending = true ∧
    ((vlC8w.componentWillUnmount dmC8).1).delayUpdateTimer = none ∧
    ((vlC8w.componentWillUnmount dmC8).2).destroyed = true ∧
    (schedRun ((vlC8w.componentWillUnmount dmC8).2)
      (List.replicate 2 SchedOp.fire)).execs = ([] : List Int) := by
  have h := c8_destroy_cancels vlC8w dmC8 rfl rfl
  exact ⟨rfl, h.1, h.2.1, h.2.2.2 2⟩
